import Mathlib

/-!
# Progress Tracker of the LMS course-marketplace

Shallow embedding of the Progress Tracker component and its adjacent
course-management operations, translated from the repository's source
(`createCourse`, `reorderChapters`, `trackProgress`,
`calculateCourseProgress`, and the Prisma data model).

Modelling conventions:
* The relational store is a record of lists, one per table.  Surrogate
  `uuid` primary keys and `createdAt`/`updatedAt` timestamps are omitted:
  a `UserProgress` row is identified by its `(userId, chapterId)` key
  (the schema's `@@unique([userId, chapterId])`), a `Purchase` row by
  `(userId, courseId)`.
* JavaScript numbers are modelled as `ℚ` where the code divides; the
  division `0 / 0` yields `NaN` in JavaScript, which the embedding makes
  explicit as `Option.none` (every other outcome is `some` of the exact
  rational the formula denotes).
* A Prisma `update` whose `where` clause matches no row throws
  (`P2025`); the embedding returns `Option.none` for the failing call.
  `prisma.$transaction` runs its batch atomically: if any call fails the
  whole batch is rolled back.  `runReorder` exposes the caller's view of
  that rollback: the pre-call store together with a success flag.
* The upsert `trackProgress` is keyed on `(userId, chapterId)`; its
  `update` arm overwrites `isCompleted` of every matching row, its
  `create` arm appends the fresh row.
* `createCourse` receives the generated course identifier as an explicit
  argument (the source lets the store generate a `uuid`); nested chapter
  identifiers are derived from it.
-/

namespace LMS

/-- A row of the `Course` table (schema fields relevant to the tracker). -/
structure Course where
  id : String
  userId : String
  title : String
  description : Option String
  imageUrl : Option String
  price : Option ℚ
  isPublished : Bool
deriving Repr, DecidableEq

/-- A row of the `Chapter` table. -/
structure Chapter where
  id : String
  courseId : String
  title : String
  description : Option String
  videoUrl : Option String
  position : Int
  isPublished : Bool
  isFree : Bool
deriving Repr, DecidableEq

/-- A row of the `UserProgress` table, identified by its
`(userId, chapterId)` unique key. -/
structure UserProgress where
  userId : String
  chapterId : String
  isCompleted : Bool
deriving Repr, DecidableEq

/-- A row of the `Purchase` table, identified by `(userId, courseId)`. -/
structure Purchase where
  userId : String
  courseId : String
deriving Repr, DecidableEq

/-- The relational store the operations run against. -/
structure Store where
  courses : List Course
  chapters : List Chapter
  progress : List UserProgress
  purchases : List Purchase
deriving Repr, DecidableEq

/-- The published chapters of a course: the code's
`prisma.chapter.findMany({ where: { courseId, isPublished: true } })`. -/
def publishedChapters (s : Store) (courseId : String) : List Chapter :=
  s.chapters.filter (fun c => c.courseId == courseId && c.isPublished)

/-- The user's progress rows for one chapter: the code's
`include: { userProgress: { where: { userId } } }` seen from one chapter. -/
def userProgressFor (s : Store) (userId chapterId : String) : List UserProgress :=
  s.progress.filter (fun p => p.userId == userId && p.chapterId == chapterId)

/-- The code's completion test for one chapter:
`chapter.userProgress.some((progress) => progress.isCompleted)`. -/
def chapterCompleted (s : Store) (userId : String) (c : Chapter) : Bool :=
  (userProgressFor s userId c.id).any (fun p => p.isCompleted)

/-- The code's `completedChapters` list:
`chapters.filter((chapter) => chapter.userProgress.some(...))`. -/
def completedChapters (s : Store) (userId courseId : String) : List Chapter :=
  (publishedChapters s courseId).filter (chapterCompleted s userId)

/-- Function `calculateCourseProgress` from `lib/progress.ts`: the ratio
`(completedChapters.length / chapters.length) * 100`.  The code divides
unconditionally; with zero published chapters the JavaScript expression is
`(0 / 0) * 100 = NaN`, rendered here as `none`. -/
def calculateCourseProgress (s : Store) (userId courseId : String) : Option ℚ :=
  let chapters := publishedChapters s courseId
  let completed := completedChapters s userId courseId
  if chapters.length = 0 then none
  else some (((completed.length : ℚ) / (chapters.length : ℚ)) * 100)

/-- The `update` arm of the `trackProgress` upsert: overwrite `isCompleted`
of the row keyed by `(userId, chapterId)`, leave every other row alone. -/
def setCompleted (userId chapterId : String) (isCompleted : Bool)
    (p : UserProgress) : UserProgress :=
  if p.userId == userId && p.chapterId == chapterId then
    { p with isCompleted := isCompleted }
  else p

/-- Function `trackProgress` from `lib/progress.ts`: the upsert on the
`(userId, chapterId)` unique key — update the flag when a row exists,
create the row otherwise. -/
def trackProgress (s : Store) (userId chapterId : String)
    (isCompleted : Bool) : Store :=
  if s.progress.any (fun p => p.userId == userId && p.chapterId == chapterId) then
    { s with progress := s.progress.map (setCompleted userId chapterId isCompleted) }
  else
    { s with progress := s.progress ++
        [{ userId := userId, chapterId := chapterId, isCompleted := isCompleted }] }

/-- One element of `reorderChapters`' `updateData` argument. -/
structure ChapterUpdate where
  id : String
  position : Int
deriving Repr, DecidableEq

/-- Effect of one `prisma.chapter.update({ where: { id }, data: { position } })`
on a single row: the `where` clause selects by chapter id only. -/
def applyUpdate (u : ChapterUpdate) (c : Chapter) : Chapter :=
  if c.id == u.id then { c with position := u.position } else c

/-- One `prisma.chapter.update` call over the whole table: fails (`P2025`)
when no row has the requested id, else rewrites the matching row. -/
def updateChapterPosition (chapters : List Chapter) (u : ChapterUpdate) :
    Option (List Chapter) :=
  if chapters.any (fun c => c.id == u.id) then
    some (chapters.map (applyUpdate u))
  else none

/-- The sequence of updates inside `prisma.$transaction`: the calls run in
order and the first failure aborts the batch. -/
def applyUpdates : List Chapter → List ChapterUpdate → Option (List Chapter)
  | chapters, [] => some chapters
  | chapters, u :: rest =>
    match updateChapterPosition chapters u with
    | none => none
    | some next => applyUpdates next rest

/-- Function `reorderChapters` from `app/api/courses/route.ts`: maps `updateData`
to one `prisma.chapter.update` per entry and runs them in a single
`prisma.$transaction`.  The `courseId` argument appears in the signature
but in no `where` clause. -/
def reorderChapters (s : Store) (courseId : String)
    (updateData : List ChapterUpdate) : Option Store :=
  match applyUpdates s.chapters updateData with
  | none => none
  | some cs => some { s with chapters := cs }

/-- The caller's view of the `$transaction`: on failure the batch is
rolled back, so the observable store is the pre-call one; the flag records
whether the batch committed. -/
def runReorder (s : Store) (courseId : String)
    (updateData : List ChapterUpdate) : Store × Bool :=
  match reorderChapters s courseId updateData with
  | none => (s, false)
  | some s' => (s', true)

/-- The position a chapter with the given id ends at when the whole batch
commits: the last update naming the id wins, a chapter named by no update
keeps its pre-call position `p`. -/
def finalPos (us : List ChapterUpdate) (id : String) (p : Int) : Int :=
  us.foldl (fun q u => if u.id == id then u.position else q) p

/-- Input row for one nested chapter of `createCourse`. -/
structure CreateChapterData where
  title : String
  description : Option String
deriving Repr, DecidableEq

/-- The `CreateCourseData` payload of `createCourse`. -/
structure CreateCourseData where
  title : String
  description : Option String
  imageUrl : Option String
  price : Option ℚ
  chapters : List CreateChapterData
deriving Repr, DecidableEq

/-- The chapter row `createCourse` inserts for the entry of
`data.chapters` at index `p.1`: the code's
`{ title: chapter.title, description: chapter.description, position: index }`,
with schema defaults for the unset fields and a derived identifier for
the store-generated `uuid`. -/
def chapterFromData (courseId : String) (p : Nat × CreateChapterData) : Chapter :=
  { id := courseId ++ "#" ++ toString p.1, courseId := courseId,
    title := p.2.title, description := p.2.description, videoUrl := none,
    position := (p.1 : Int), isPublished := false, isFree := false }

/-- Function `createCourse` from `app/api/courses/route.ts`: inserts the course row
and one chapter row per entry of `data.chapters`, assigning
`position: index` from the `map((chapter, index) => ...)` callback. -/
def createCourse (s : Store) (userId : String) (courseId : String)
    (data : CreateCourseData) : Store :=
  { s with
    courses := s.courses ++
      [{ id := courseId, userId := userId, title := data.title,
         description := data.description, imageUrl := data.imageUrl,
         price := data.price, isPublished := false }],
    chapters := s.chapters ++
      ((List.range data.chapters.length).zip data.chapters).map
        (chapterFromData courseId) }

/-- Error taxonomy of the spec for "set chapter completion". -/
inductive TrackError where
  | notFound
  | unauthorized
deriving Repr, DecidableEq

/-- Modelled from the spec: the access-control policy around the
"set chapter completion" operation, which the spec places in the
caller/collaborator ("enforced by the caller/collaborator, not internal
to the tracker") — that request handler is not among the sources.  It
fails with NotFound when the chapter identifier references no existing
chapter, fails with Unauthorized when the chapter is not free and the
user holds no Purchase for the chapter's course, and otherwise performs
the `trackProgress` upsert. -/
def trackProgressChecked (s : Store) (userId chapterId : String)
    (isCompleted : Bool) : Except TrackError Store :=
  match s.chapters.find? (fun c => c.id == chapterId) with
  | none => Except.error TrackError.notFound
  | some ch =>
    if ch.isFree ||
        s.purchases.any (fun p => p.userId == userId && p.courseId == ch.courseId) then
      Except.ok (trackProgress s userId chapterId isCompleted)
    else
      Except.error TrackError.unauthorized

/-- The caller's view of the checked operation: on an error no write
happens, so the observable store is the pre-call one. -/
def runTrackChecked (s : Store) (userId chapterId : String)
    (isCompleted : Bool) : Store × Option TrackError :=
  match trackProgressChecked s userId chapterId isCompleted with
  | Except.error e => (s, some e)
  | Except.ok s' => (s', none)

/-- The schema invariant `@@unique([userId, chapterId])` of `UserProgress`:
no two rows share a `(userId, chapterId)` key. -/
def atMostOne (s : Store) : Prop :=
  s.progress.Pairwise (fun p q => ¬(p.userId = q.userId ∧ p.chapterId = q.chapterId))

/-- Concrete store realising the spec's scenario: course `course1` with
published chapters `ch1`, `ch2` and unpublished `ch3`; user `u1` has
progress rows `ch1 ↦ true`, `ch2 ↦ false`. -/
def demoProgressStore : Store where
  courses := [{ id := "course1", userId := "teacher", title := "T",
                description := none, imageUrl := none, price := none,
                isPublished := true }]
  chapters :=
    [{ id := "ch1", courseId := "course1", title := "one", description := none,
       videoUrl := none, position := 0, isPublished := true, isFree := false },
     { id := "ch2", courseId := "course1", title := "two", description := none,
       videoUrl := none, position := 1, isPublished := true, isFree := false },
     { id := "ch3", courseId := "course1", title := "three", description := none,
       videoUrl := none, position := 2, isPublished := false, isFree := false }]
  progress :=
    [{ userId := "u1", chapterId := "ch1", isCompleted := true },
     { userId := "u1", chapterId := "ch2", isCompleted := false }]
  purchases := [{ userId := "u1", courseId := "course1" }]

/-- A store holding a course with zero published chapters and no progress:
the failing input of claim C2. -/
def emptyCourseStore : Store where
  courses := [{ id := "course1", userId := "teacher", title := "T",
                description := none, imageUrl := none, price := none,
                isPublished := true }]
  chapters := []
  progress := []
  purchases := []

/-- Chapters `A`, `B`, `C` of `course1` at positions `0`, `1`, `2`: the
spec's reorder scenario. -/
def demoReorderStore : Store where
  courses := [{ id := "course1", userId := "teacher", title := "T",
                description := none, imageUrl := none, price := none,
                isPublished := true }]
  chapters :=
    [{ id := "A", courseId := "course1", title := "a", description := none,
       videoUrl := none, position := 0, isPublished := true, isFree := false },
     { id := "B", courseId := "course1", title := "b", description := none,
       videoUrl := none, position := 1, isPublished := true, isFree := false },
     { id := "C", courseId := "course1", title := "c", description := none,
       videoUrl := none, position := 2, isPublished := true, isFree := false }]
  progress := []
  purchases := []

/-- The batch swapping `A` and `C` in `demoReorderStore`. -/
def demoSwap : List ChapterUpdate := [{ id := "A", position := 2 }, { id := "C", position := 0 }]

/-- State of `demoReorderStore` after the committed swap: positions `A ↦ 2`,
`B ↦ 1`, `C ↦ 0`. -/
def demoReorderResult : Store :=
  { demoReorderStore with chapters :=
    [{ id := "A", courseId := "course1", title := "a", description := none,
       videoUrl := none, position := 2, isPublished := true, isFree := false },
     { id := "B", courseId := "course1", title := "b", description := none,
       videoUrl := none, position := 1, isPublished := true, isFree := false },
     { id := "C", courseId := "course1", title := "c", description := none,
       videoUrl := none, position := 0, isPublished := true, isFree := false }] }

/-- Chapters `A` at position `0` and `B` at position `1`, both of
`course1`: the pre-state of the duplicate-position counterexample. -/
def dupStore : Store where
  courses := [{ id := "course1", userId := "teacher", title := "T",
                description := none, imageUrl := none, price := none,
                isPublished := true }]
  chapters :=
    [{ id := "A", courseId := "course1", title := "a", description := none,
       videoUrl := none, position := 0, isPublished := true, isFree := false },
     { id := "B", courseId := "course1", title := "b", description := none,
       videoUrl := none, position := 1, isPublished := true, isFree := false }]
  progress := []
  purchases := []

/-- State of `dupStore` after the batch `[A ↦ 1]`: both chapters of `course1` sit
at position `1`. -/
def dupResult : Store :=
  { dupStore with chapters :=
    [{ id := "A", courseId := "course1", title := "a", description := none,
       videoUrl := none, position := 1, isPublished := true, isFree := false },
     { id := "B", courseId := "course1", title := "b", description := none,
       videoUrl := none, position := 1, isPublished := true, isFree := false }] }

/-- A single chapter `X` that belongs to course `other`: reordering it
through a call that names `course1` still moves it. -/
def crossStore : Store where
  courses := [{ id := "course1", userId := "teacher", title := "T",
                description := none, imageUrl := none, price := none,
                isPublished := true },
              { id := "other", userId := "teacher", title := "O",
                description := none, imageUrl := none, price := none,
                isPublished := true }]
  chapters :=
    [{ id := "X", courseId := "other", title := "x", description := none,
       videoUrl := none, position := 0, isPublished := true, isFree := false }]
  progress := []
  purchases := []

/-- A store with one non-free chapter and no purchases: the Unauthorized
scenario of claim C7. -/
def unauthorizedStore : Store where
  courses := [{ id := "course1", userId := "teacher", title := "T",
                description := none, imageUrl := none, price := none,
                isPublished := true }]
  chapters :=
    [{ id := "ch1", courseId := "course1", title := "one", description := none,
       videoUrl := none, position := 0, isPublished := true, isFree := false }]
  progress := []
  purchases := []

/-- Sample `createCourse` payload with three chapters. -/
def demoCourseData : CreateCourseData where
  title := "New course"
  description := none
  imageUrl := none
  price := none
  chapters :=
    [{ title := "intro", description := none },
     { title := "middle", description := none },
     { title := "outro", description := none }]

/-!
## Theorems
-/

/-- Claim C1: with `N ≥ 1` published chapters of which the user has
completed exactly `k` (a chapter counts as completed when a progress row
for it has `isCompleted = true`; unpublished chapters and false rows do
not count), `calculateCourseProgress` returns `100·k/N`. -/
theorem calculateCourseProgress_formula (s : Store) (userId courseId : String)
    (h : 1 ≤ (publishedChapters s courseId).length) :
    calculateCourseProgress s userId courseId =
      some (100 * ((completedChapters s userId courseId).length : ℚ) /
        ((publishedChapters s courseId).length : ℚ)) := by
  unfold calculateCourseProgress
  have hne : (publishedChapters s courseId).length ≠ 0 := by omega
  simp only [hne, if_false]
  congr 1
  rw [div_mul_eq_mul_div, mul_comm]

/-- Witness for C1 on the spec's scenario store: two published chapters,
one completed, result `100·1/2 = 50`. -/
theorem calculateCourseProgress_formula_witness :
    calculateCourseProgress demoProgressStore "u1" "course1" =
      some (100 * ((completedChapters demoProgressStore "u1" "course1").length : ℚ) /
        ((publishedChapters demoProgressStore "course1").length : ℚ)) :=
  calculateCourseProgress_formula demoProgressStore "u1" "course1" (by decide)

/-- Claim C2 (failing input): on a course with zero published chapters the
code evaluates `(0 / 0) * 100`, which is `NaN` in JavaScript (`none` in
this embedding) — not the defined "no content" sentinel the claim
requires. -/
theorem calculateCourseProgress_zero_chapters_nan :
    calculateCourseProgress emptyCourseStore "u1" "course1" = none := by
  decide

theorem setCompleted_userId (u c : String) (f : Bool) (p : UserProgress) :
    (setCompleted u c f p).userId = p.userId := by
  unfold setCompleted; split <;> rfl

theorem setCompleted_chapterId (u c : String) (f : Bool) (p : UserProgress) :
    (setCompleted u c f p).chapterId = p.chapterId := by
  unfold setCompleted; split <;> rfl

theorem setCompleted_key (u c u' c' : String) (f : Bool) (p : UserProgress) :
    ((setCompleted u c f p).userId == u' && (setCompleted u c f p).chapterId == c') =
      (p.userId == u' && p.chapterId == c') := by
  rw [setCompleted_userId, setCompleted_chapterId]

theorem setCompleted_of_key_false (u c : String) (f : Bool) (p : UserProgress)
    (h : (p.userId == u && p.chapterId == c) = false) :
    setCompleted u c f p = p := by
  unfold setCompleted; simp [h]

theorem setCompleted_of_key_true (u c : String) (f : Bool) (p : UserProgress)
    (h : (p.userId == u && p.chapterId == c) = true) :
    setCompleted u c f p = { p with isCompleted := f } := by
  unfold setCompleted; simp [h]

theorem setCompleted_idem (u c : String) (f : Bool) (p : UserProgress) :
    setCompleted u c f (setCompleted u c f p) = setCompleted u c f p := by
  by_cases h : (p.userId == u && p.chapterId == c) = true
  · have h2 : (({ p with isCompleted := f } : UserProgress).userId == u &&
        ({ p with isCompleted := f } : UserProgress).chapterId == c) = true := h
    rw [setCompleted_of_key_true u c f p h, setCompleted_of_key_true u c f _ h2]
  · have h' := Bool.eq_false_iff.mpr h
    rw [setCompleted_of_key_false u c f p h', setCompleted_of_key_false u c f p h']

theorem any_key_map (l : List UserProgress) (u c u' c' : String) (f : Bool) :
    ((l.map (setCompleted u c f)).any (fun p => p.userId == u' && p.chapterId == c')) =
      l.any (fun p => p.userId == u' && p.chapterId == c') := by
  rw [List.any_map]
  congr 1
  funext p
  exact setCompleted_key u c u' c' f p

theorem filter_key_map (l : List UserProgress) (u c u' c' : String) (f : Bool) :
    (l.map (setCompleted u c f)).filter (fun p => p.userId == u' && p.chapterId == c') =
      (l.filter (fun p => p.userId == u' && p.chapterId == c')).map (setCompleted u c f) := by
  have hfun : ((fun p : UserProgress => p.userId == u' && p.chapterId == c') ∘
      setCompleted u c f) = (fun p => p.userId == u' && p.chapterId == c') :=
    funext (fun p => setCompleted_key u c u' c' f p)
  rw [List.filter_map, hfun]

theorem length_filter_key_le_one (l : List UserProgress)
    (hl : l.Pairwise (fun p q => ¬(p.userId = q.userId ∧ p.chapterId = q.chapterId)))
    (u c : String) :
    (l.filter (fun p => p.userId == u && p.chapterId == c)).length ≤ 1 := by
  induction l with
  | nil => simp
  | cons p rest ih =>
    rcases List.pairwise_cons.mp hl with ⟨hp, hrest⟩
    by_cases h : (p.userId == u && p.chapterId == c) = true
    · have hpu : p.userId = u ∧ p.chapterId = c := by simpa using h
      have hnil : rest.filter (fun q => q.userId == u && q.chapterId == c) = [] := by
        rw [List.filter_eq_nil_iff]
        intro q hq hkey
        have hqu : q.userId = u ∧ q.chapterId = c := by simpa using hkey
        exact hp q hq ⟨hpu.1.trans hqu.1.symm, hpu.2.trans hqu.2.symm⟩
      simp [List.filter_cons, h, hnil]
    · simp only [List.filter_cons, h, if_false]
      exact ih hrest

theorem length_filter_pos_of_any {α : Type} (l : List α) (p : α → Bool)
    (h : l.any p = true) : 0 < (l.filter p).length := by
  rcases List.any_eq_true.mp h with ⟨a, ha, hpa⟩
  exact List.length_pos.mpr (List.ne_nil_of_mem (List.mem_filter.mpr ⟨ha, hpa⟩))

theorem store_progress_ext (s : Store) (l : List UserProgress) (h : l = s.progress) :
    { s with progress := l } = s := by
  cases s; cases h; rfl

/-- Claim C4: the upsert is idempotent — calling it twice with the same
flag yields the same store as calling it once, and afterwards exactly one
progress row exists for the `(user, chapter)` key, carrying the given
flag. -/
theorem trackProgress_idempotent (s : Store) (u c : String) (f : Bool)
    (h : atMostOne s) :
    trackProgress (trackProgress s u c f) u c f = trackProgress s u c f ∧
    (userProgressFor (trackProgress s u c f) u c).length = 1 ∧
    ∀ p ∈ userProgressFor (trackProgress s u c f) u c, p.isCompleted = f := by
  by_cases hany : s.progress.any (fun p => p.userId == u && p.chapterId == c) = true
  · have hs1 : trackProgress s u c f =
        { s with progress := s.progress.map (setCompleted u c f) } := by
      unfold trackProgress; rw [if_pos hany]
    have hmapmap : (s.progress.map (setCompleted u c f)).map (setCompleted u c f) =
        s.progress.map (setCompleted u c f) := by
      rw [List.map_map]
      exact List.map_congr_left (fun p _ => setCompleted_idem u c f p)
    refine ⟨?_, ?_, ?_⟩
    · rw [hs1]
      unfold trackProgress
      rw [if_pos (by
        show (s.progress.map (setCompleted u c f)).any _ = true
        rw [any_key_map]; exact hany)]
      exact store_progress_ext _ _ hmapmap
    · rw [hs1]
      unfold userProgressFor
      show ((s.progress.map (setCompleted u c f)).filter _).length = 1
      rw [filter_key_map]
      rw [List.length_map]
      have hle := length_filter_key_le_one s.progress h u c
      have hpos := length_filter_pos_of_any s.progress
        (fun p => p.userId == u && p.chapterId == c) hany
      omega
    · rw [hs1]
      unfold userProgressFor
      intro p hp
      rw [show ({ s with progress := s.progress.map (setCompleted u c f) } : Store).progress =
        s.progress.map (setCompleted u c f) from rfl, filter_key_map] at hp
      rcases List.mem_map.mp hp with ⟨q, hq, hqp⟩
      have hkey := (List.mem_filter.mp hq).2
      rw [setCompleted_of_key_true u c f q hkey] at hqp
      rw [← hqp]
  · have hany' := Bool.eq_false_iff.mpr hany
    have hs1 : trackProgress s u c f =
        { s with progress := s.progress ++
          [{ userId := u, chapterId := c, isCompleted := f }] } := by
      unfold trackProgress; rw [if_neg hany]
    have hmapid : s.progress.map (setCompleted u c f) = s.progress := by
      have := List.any_eq_false.mp hany'
      calc s.progress.map (setCompleted u c f) = s.progress.map id :=
            List.map_congr_left (fun p hp =>
              setCompleted_of_key_false u c f p (Bool.eq_false_iff.mpr (this p hp)))
        _ = s.progress := List.map_id s.progress
    have hkeyr : (({ userId := u, chapterId := c, isCompleted := f } :
        UserProgress).userId == u &&
        ({ userId := u, chapterId := c, isCompleted := f } :
          UserProgress).chapterId == c) = true := by
      simp
    have hfilnil : s.progress.filter (fun p => p.userId == u && p.chapterId == c) = [] := by
      rw [List.filter_eq_nil_iff]
      intro q hq hkey
      exact absurd hkey (List.any_eq_false.mp hany' q hq)
    refine ⟨?_, ?_, ?_⟩
    · rw [hs1]
      unfold trackProgress
      rw [if_pos (by
        show (s.progress ++ [_]).any _ = true
        rw [List.any_append]
        simp)]
      apply store_progress_ext
      show (s.progress ++ [_]).map (setCompleted u c f) = s.progress ++ [_]
      rw [List.map_append, hmapid]
      congr 1
      show [setCompleted u c f _] = [_]
      rw [setCompleted_of_key_true u c f _ hkeyr]
    · rw [hs1]
      unfold userProgressFor
      show ((s.progress ++ [_]).filter _).length = 1
      rw [List.filter_append, hfilnil]
      simp
    · rw [hs1]
      unfold userProgressFor
      intro p hp
      rw [show ({ s with progress := s.progress ++
        [{ userId := u, chapterId := c, isCompleted := f }] } : Store).progress =
          s.progress ++ [{ userId := u, chapterId := c, isCompleted := f }] from rfl,
        List.filter_append, hfilnil] at hp
      simp at hp
      rw [hp]

/-- Witness for C4: the scenario store satisfies the key-uniqueness
invariant, and re-marking `ch1` complete is idempotent with exactly one
resulting row. -/
theorem trackProgress_idempotent_witness :
    trackProgress (trackProgress demoProgressStore "u1" "ch1" true) "u1" "ch1" true =
      trackProgress demoProgressStore "u1" "ch1" true ∧
    (userProgressFor (trackProgress demoProgressStore "u1" "ch1" true) "u1" "ch1").length = 1 ∧
    ∀ p ∈ userProgressFor (trackProgress demoProgressStore "u1" "ch1" true) "u1" "ch1",
      p.isCompleted = true :=
  trackProgress_idempotent demoProgressStore "u1" "ch1" true (by
    unfold atMostOne
    decide)

/-- Claim C5: every operation preserves the `(userId, chapterId)`
uniqueness invariant on progress rows.  The upsert either rewrites rows in
place (keys untouched) or appends a key that was absent; a committed
reorder batch rewrites only the chapter table; `calculateCourseProgress`
is a pure read returning no modified store, so the state after it is the
input state itself (third conjunct). -/
theorem operations_preserve_atMostOne (s : Store) (h : atMostOne s) :
    (∀ u c f, atMostOne (trackProgress s u c f)) ∧
    (∀ courseId us s', reorderChapters s courseId us = some s' → atMostOne s') ∧
    atMostOne s := by
  refine ⟨?_, ?_, h⟩
  · intro u c f
    unfold trackProgress
    by_cases hany : s.progress.any (fun p => p.userId == u && p.chapterId == c) = true
    · rw [if_pos hany]
      show (s.progress.map (setCompleted u c f)).Pairwise _
      rw [List.pairwise_map]
      exact h.imp (fun hab => by
        simpa [setCompleted_userId, setCompleted_chapterId] using hab)
    · rw [if_neg hany]
      show (s.progress ++ [_]).Pairwise _
      rw [List.pairwise_append]
      refine ⟨h, by simp, ?_⟩
      intro a ha b hb
      have hb' : b = { userId := u, chapterId := c, isCompleted := f } := by
        simpa using hb
      subst hb'
      rintro ⟨h1, h2⟩
      exact List.any_eq_false.mp (Bool.eq_false_iff.mpr hany) a ha (by simp [h1, h2])
  · intro courseId us s' hs'
    have hp : s'.progress = s.progress := by
      unfold reorderChapters at hs'
      cases hcs : applyUpdates s.chapters us with
      | none => rw [hcs] at hs'; exact absurd hs' (by simp)
      | some cs =>
        rw [hcs] at hs'
        cases hs'
        rfl
    show s'.progress.Pairwise _
    rw [hp]
    exact h

/-- Witness for C5: the scenario store satisfies the invariant, and the
upsert of a fresh `(user, chapter)` key preserves it. -/
theorem operations_preserve_atMostOne_witness :
    atMostOne (trackProgress demoProgressStore "u2" "ch2" true) :=
  (operations_preserve_atMostOne demoProgressStore
    (by unfold atMostOne; decide)).1 "u2" "ch2" true

/-- Claim C8: the upsert touches only the progress row keyed by the given
`(user, chapter)` pair — the chapter, course and purchase tables are
unchanged, and so are the progress rows of every other key. -/
theorem trackProgress_frame (s : Store) (u c : String) (f : Bool) :
    (trackProgress s u c f).chapters = s.chapters ∧
    (trackProgress s u c f).courses = s.courses ∧
    (trackProgress s u c f).purchases = s.purchases ∧
    ∀ u' c', ¬(u' = u ∧ c' = c) →
      userProgressFor (trackProgress s u c f) u' c' = userProgressFor s u' c' := by
  refine ⟨?_, ?_, ?_, ?_⟩
  · unfold trackProgress; split <;> rfl
  · unfold trackProgress; split <;> rfl
  · unfold trackProgress; split <;> rfl
  · intro u' c' hne
    unfold trackProgress userProgressFor
    by_cases hany : s.progress.any (fun p => p.userId == u && p.chapterId == c) = true
    · rw [if_pos hany]
      show (s.progress.map (setCompleted u c f)).filter _ = s.progress.filter _
      rw [filter_key_map]
      refine (List.map_congr_left ?_).trans (List.map_id _)
      intro a ha
      apply setCompleted_of_key_false
      apply Bool.eq_false_iff.mpr
      intro hk
      have hk' : a.userId = u ∧ a.chapterId = c := by simpa using hk
      have ha' : a.userId = u' ∧ a.chapterId = c' := by
        simpa using (List.mem_filter.mp ha).2
      exact hne ⟨ha'.1.symm.trans hk'.1, ha'.2.symm.trans hk'.2⟩
    · rw [if_neg hany]
      show (s.progress ++ [_]).filter _ = s.progress.filter _
      rw [List.filter_append]
      have hr : (({ userId := u, chapterId := c, isCompleted := f } :
          UserProgress).userId == u' &&
          ({ userId := u, chapterId := c, isCompleted := f } :
            UserProgress).chapterId == c') = false := by
        apply Bool.eq_false_iff.mpr
        intro hk
        have hk' : u = u' ∧ c = c' := by simpa using hk
        exact hne ⟨hk'.1.symm, hk'.2.symm⟩
      simp [List.filter_cons, hr]

/-- Witness for C8: marking `ch1` for `u1` leaves the `(u1, ch2)` rows of
the scenario store untouched. -/
theorem trackProgress_frame_witness :
    userProgressFor (trackProgress demoProgressStore "u1" "ch1" false) "u1" "ch2" =
      userProgressFor demoProgressStore "u1" "ch2" :=
  (trackProgress_frame demoProgressStore "u1" "ch1" false).2.2.2 "u1" "ch2" (by decide)

theorem applyUpdate_id (u : ChapterUpdate) (c : Chapter) :
    (applyUpdate u c).id = c.id := by
  unfold applyUpdate; split <;> rfl

theorem finalPos_cons (u : ChapterUpdate) (us : List ChapterUpdate)
    (id : String) (p : Int) :
    finalPos (u :: us) id p = finalPos us id (if u.id == id then u.position else p) :=
  rfl

theorem applyUpdates_eq_map (us : List ChapterUpdate) :
    ∀ (l l' : List Chapter), applyUpdates l us = some l' →
      l' = l.map (fun c => { c with position := finalPos us c.id c.position }) := by
  induction us with
  | nil =>
    intro l l' h
    unfold applyUpdates at h
    cases h
    symm
    exact (List.map_congr_left (fun c _ => rfl)).trans (List.map_id _)
  | cons u rest ih =>
    intro l l' h
    unfold applyUpdates at h
    cases hup : updateChapterPosition l u with
    | none => rw [hup] at h; exact absurd h (by simp)
    | some l1 =>
      rw [hup] at h
      have hrec := ih l1 l' h
      unfold updateChapterPosition at hup
      by_cases hany : l.any (fun c => c.id == u.id) = true
      · rw [if_pos hany] at hup
        have hl1 : l1 = l.map (applyUpdate u) := by cases hup; rfl
        subst hl1
        rw [hrec, List.map_map]
        apply List.map_congr_left
        intro c _
        show ({ applyUpdate u c with
          position := finalPos rest (applyUpdate u c).id (applyUpdate u c).position } :
            Chapter) =
          { c with position := finalPos (u :: rest) c.id c.position }
        rw [finalPos_cons]
        by_cases hid : (c.id == u.id) = true
        · have hid' : (u.id == c.id) = true := by
            rw [beq_iff_eq] at hid ⊢; exact hid.symm
          unfold applyUpdate
          rw [if_pos hid, if_pos hid']
        · have hne : c.id ≠ u.id := by simpa using hid
          have hid' : (u.id == c.id) = false := by
            simpa using fun hk => hne hk.symm
          have hidf : (c.id == u.id) = false := by simpa using hne
          unfold applyUpdate
          rw [hidf, hid']
          simp
      · rw [if_neg hany] at hup
        exact absurd hup (by simp)

/-- Claim C3: reordering is atomic.  First conjunct: when the transaction
fails the caller observes the pre-call store — no partial reordering.
Second conjunct: when the batch commits, every chapter's position is the
effect of the whole batch (`finalPos`: the last update naming its id, or
its old position when none does) and the other tables are untouched.
Remaining conjuncts: the spec's scenario — chapters `[A, B, C]` at
positions `[0, 1, 2]` and a batch swapping `A` and `C` commit with
positions exactly `A ↦ 2`, `B ↦ 1`, `C ↦ 0`. -/
theorem reorderChapters_atomic (s : Store) (courseId : String)
    (us : List ChapterUpdate) :
    ((runReorder s courseId us).2 = false → (runReorder s courseId us).1 = s) ∧
    (∀ s', reorderChapters s courseId us = some s' →
      s'.chapters = s.chapters.map
        (fun c => { c with position := finalPos us c.id c.position }) ∧
      s'.courses = s.courses ∧ s'.progress = s.progress ∧
      s'.purchases = s.purchases) ∧
    (runReorder demoReorderStore "course1" demoSwap).2 = true ∧
    (runReorder demoReorderStore "course1" demoSwap).1.chapters.map
      (fun c => (c.id, c.position)) = [("A", 2), ("B", 1), ("C", 0)] := by
  refine ⟨?_, ?_, by decide, by decide⟩
  · intro hfail
    unfold runReorder at hfail ⊢
    cases hr : reorderChapters s courseId us with
    | none => rfl
    | some s' => rw [hr] at hfail; exact absurd hfail (by simp)
  · intro s' hs'
    unfold reorderChapters at hs'
    cases hcs : applyUpdates s.chapters us with
    | none => rw [hcs] at hs'; exact absurd hs' (by simp)
    | some cs =>
      rw [hcs] at hs'
      cases hs'
      exact ⟨applyUpdates_eq_map us s.chapters cs hcs, rfl, rfl, rfl⟩

/-- Witness for C3: a batch naming a missing chapter id fails and the
caller still observes the pre-call store; the committed swap batch
rewrites the chapter table to its `finalPos` image. -/
theorem reorderChapters_atomic_witness :
    (runReorder demoReorderStore "course1" [{ id := "missing", position := 0 }]).1 =
      demoReorderStore ∧
    demoReorderResult.chapters = demoReorderStore.chapters.map
      (fun c => { c with position := finalPos demoSwap c.id c.position }) :=
  ⟨(reorderChapters_atomic demoReorderStore "course1"
      [{ id := "missing", position := 0 }]).1 (by decide),
   ((reorderChapters_atomic demoReorderStore "course1" demoSwap).2.1
      demoReorderResult (by decide)).1⟩

/-- Claim C6 (counterexample): on chapters `A ↦ 0`, `B ↦ 1` of `course1`
the batch `[A ↦ 1]` commits — there is no Conflict check — and leaves the
two distinct chapters of the same course at the same position `1`. -/
theorem reorderChapters_duplicate_positions_cex :
    reorderChapters dupStore "course1" [{ id := "A", position := 1 }] = some dupResult ∧
    dupResult.chapters.map (fun c => (c.id, c.courseId, c.position)) =
      [("A", "course1", 1), ("B", "course1", 1)] :=
  ⟨by decide, by decide⟩

/-- Claim C6 (amended): `reorderChapters` performs no position-uniqueness
check — a batch commits whenever every named chapter id exists, whatever
positions it produces, so duplicate positions within a course are
observable afterwards and no Conflict error exists in the code. -/
theorem reorderChapters_no_conflict_check (s : Store) (courseId : String)
    (us : List ChapterUpdate)
    (h : ∀ u ∈ us, s.chapters.any (fun c => c.id == u.id) = true) :
    ∃ s', reorderChapters s courseId us = some s' := by
  suffices hs : ∀ (l : List Chapter),
      (∀ u ∈ us, l.any (fun c => c.id == u.id) = true) →
      ∃ l', applyUpdates l us = some l' by
    rcases hs s.chapters h with ⟨l', hl'⟩
    exact ⟨{ s with chapters := l' }, by unfold reorderChapters; rw [hl']⟩
  clear h
  induction us with
  | nil => intro l _; exact ⟨l, rfl⟩
  | cons u rest ih =>
    intro l hl
    have hu := hl u (by simp)
    have hmap : ∀ v ∈ rest, (l.map (applyUpdate u)).any (fun c => c.id == v.id) = true := by
      intro v hv
      rw [List.any_map]
      have hfun : ((fun c : Chapter => c.id == v.id) ∘ applyUpdate u) =
          fun c => c.id == v.id := by
        funext c
        show ((applyUpdate u c).id == v.id) = _
        rw [applyUpdate_id]
      rw [hfun]
      exact hl v (by simp [hv])
    rcases ih (l.map (applyUpdate u)) hmap with ⟨l', hl'⟩
    refine ⟨l', ?_⟩
    unfold applyUpdates updateChapterPosition
    rw [if_pos hu]
    exact hl'

/-- Witness for C6's amended claim: the duplicate-producing batch on
`dupStore` commits. -/
theorem reorderChapters_no_conflict_check_witness :
    ∃ s', reorderChapters dupStore "course1" [{ id := "A", position := 1 }] = some s' :=
  reorderChapters_no_conflict_check dupStore "course1"
    [{ id := "A", position := 1 }] (by decide)

/-- Claim C10: the `courseId` argument of `reorderChapters` constrains
nothing — the body never reads it, so two calls differing only in
`courseId` produce identical results (first conjunct), and a batch naming
a chapter of a different course still moves that chapter (the call names
`course1`, the only chapter belongs to `other`, and its position becomes
`5`). -/
theorem reorderChapters_ignores_courseId :
    (∀ (s : Store) (cid1 cid2 : String) (us : List ChapterUpdate),
      reorderChapters s cid1 us = reorderChapters s cid2 us) ∧
    (runReorder crossStore "course1" [{ id := "X", position := 5 }]).2 = true ∧
    (runReorder crossStore "course1" [{ id := "X", position := 5 }]).1.chapters.map
      (fun c => (c.id, c.courseId, c.position)) = [("X", "other", 5)] :=
  ⟨fun _ _ _ _ => rfl, by decide, by decide⟩

/-- Claim C9: a freshly created course has chapter positions exactly
`0, 1, …, n−1` in input order (titles follow the input list, second
conjunct), and these positions are pairwise distinct within the course.
The hypothesis states the generated course identifier is fresh: no
pre-existing chapter belongs to it. -/
theorem createCourse_positions (s : Store) (userId courseId : String)
    (data : CreateCourseData)
    (h : s.chapters.filter (fun c => c.courseId == courseId) = []) :
    ((createCourse s userId courseId data).chapters.filter
      (fun c => c.courseId == courseId)).map (fun c => c.position) =
      (List.range data.chapters.length).map (Int.ofNat) ∧
    ((createCourse s userId courseId data).chapters.filter
      (fun c => c.courseId == courseId)).map (fun c => c.title) =
      data.chapters.map (fun ch => ch.title) ∧
    (((createCourse s userId courseId data).chapters.filter
      (fun c => c.courseId == courseId)).map (fun c => c.position)).Nodup := by
  have hchap : (createCourse s userId courseId data).chapters =
      s.chapters ++ ((List.range data.chapters.length).zip data.chapters).map
        (chapterFromData courseId) := rfl
  have hkeep : (((List.range data.chapters.length).zip data.chapters).map
      (chapterFromData courseId)).filter (fun c => c.courseId == courseId) =
      ((List.range data.chapters.length).zip data.chapters).map
        (chapterFromData courseId) := by
    rw [List.filter_eq_self]
    intro a ha
    rcases List.mem_map.mp ha with ⟨p, _, hpa⟩
    rw [← hpa]
    exact beq_self_eq_true courseId
  have hfil : ((createCourse s userId courseId data).chapters.filter
      (fun c => c.courseId == courseId)) =
      ((List.range data.chapters.length).zip data.chapters).map
        (chapterFromData courseId) := by
    rw [hchap, List.filter_append, h, hkeep, List.nil_append]
  have hlen : (List.range data.chapters.length).length ≤ data.chapters.length := by
    rw [List.length_range]
  have hlen' : data.chapters.length ≤ (List.range data.chapters.length).length := by
    rw [List.length_range]
  have hpos : ((createCourse s userId courseId data).chapters.filter
      (fun c => c.courseId == courseId)).map (fun c => c.position) =
      (List.range data.chapters.length).map (Int.ofNat) := by
    have h1 : (((List.range data.chapters.length).zip data.chapters).map
        (chapterFromData courseId)).map (fun c => c.position) =
        (((List.range data.chapters.length).zip data.chapters).map Prod.fst).map
          Int.ofNat := by
      rw [List.map_map, List.map_map]
      exact List.map_congr_left (fun a _ => rfl)
    rw [hfil, h1, List.map_fst_zip _ _ hlen]
  refine ⟨hpos, ?_, ?_⟩
  · have h2 : (((List.range data.chapters.length).zip data.chapters).map
        (chapterFromData courseId)).map (fun c => c.title) =
        (((List.range data.chapters.length).zip data.chapters).map Prod.snd).map
          (fun ch : CreateChapterData => ch.title) := by
      rw [List.map_map, List.map_map]
      exact List.map_congr_left (fun a _ => rfl)
    rw [hfil, h2, List.map_snd_zip _ _ hlen']
  · rw [hpos]
    exact (List.nodup_range data.chapters.length).map
      (fun a b hab => by simpa using hab)

/-- Witness for C9: creating a three-chapter course in a store holding no
chapter of the new course yields positions `[0, 1, 2]`. -/
theorem createCourse_positions_witness :
    ((createCourse emptyCourseStore "teacher" "course2" demoCourseData).chapters.filter
      (fun c => c.courseId == "course2")).map (fun c => c.position) =
      (List.range demoCourseData.chapters.length).map (Int.ofNat) :=
  (createCourse_positions emptyCourseStore "teacher" "course2" demoCourseData
    (by decide)).1

/-- Claim C7 (spec-modelled): the checked "set chapter completion"
operation fails with NotFound whenever the chapter identifier references
no existing chapter, and with Unauthorized whenever the chapter is not
free and the user holds no Purchase for its course; in the Unauthorized
case the observable store is the pre-call one — no progress row is
written. -/
theorem trackProgressChecked_errors (s : Store) (u c : String) (f : Bool) :
    (s.chapters.find? (fun ch => ch.id == c) = none →
      trackProgressChecked s u c f = Except.error TrackError.notFound) ∧
    (∀ ch, s.chapters.find? (fun x => x.id == c) = some ch →
      ch.isFree = false →
      s.purchases.any (fun p => p.userId == u && p.courseId == ch.courseId) = false →
      runTrackChecked s u c f = (s, some TrackError.unauthorized)) := by
  constructor
  · intro hnone
    unfold trackProgressChecked
    rw [hnone]
  · intro ch hch hfree hpur
    unfold runTrackChecked trackProgressChecked
    rw [hch]
    have hcond : (ch.isFree ||
        s.purchases.any (fun p => p.userId == u && p.courseId == ch.courseId)) = false := by
      rw [hfree, hpur]
      rfl
    simp [hcond]

/-- Witness for C7: a missing chapter id yields NotFound; a non-free
chapter with no purchase yields Unauthorized with the store unchanged. -/
theorem trackProgressChecked_errors_witness :
    trackProgressChecked unauthorizedStore "u9" "missing" true =
      Except.error TrackError.notFound ∧
    runTrackChecked unauthorizedStore "u9" "ch1" true =
      (unauthorizedStore, some TrackError.unauthorized) :=
  ⟨(trackProgressChecked_errors unauthorizedStore "u9" "missing" true).1 (by decide),
   (trackProgressChecked_errors unauthorizedStore "u9" "ch1" true).2
     ⟨"ch1", "course1", "one", none, none, 0, true, false⟩
     (by decide) (by decide) (by decide)⟩

end LMS
